import Mathlib

/-!
Verification of the httpfly request router (repository burakturkerdev/httpfly).

The repository is a Go package with two variants of one file:
  * `src/httpfly.go` — the adaptive variant: next to routing it keeps
    process-wide latency statistics and promotes a route from synchronous
    to asynchronous handling;
  * `src/unnamed/part_000` — the simple variant: the identical routing,
    parameter-extraction and dispatch logic, without modes or statistics.

This file is a shallow embedding of the adaptive variant (a superset of the
simple one for everything the claims touch).  Go `int64` values are modelled
as `Int` with Go's truncating division `Int.tdiv`; overflow wrap-around is
not modelled (the code guards the counters with `resetAt` long before any
bound relevant here).  Go maps are modelled as functions `String → Option
String`; a map insert shadows the previous value of the key, which is
exactly Go's overwrite semantics.  Side effects are made explicit:
`handle` takes the globals (route table, middleware list, statistics) as
arguments and returns their updated values together with an `Outcome`
describing what was written to the response or which handler was invoked.
Wall-clock time is external to the program, so the measured duration
`elapsed` of a request is an input of the model.
-/

namespace Httpfly

/-- The character `{` (written via its code so that no brace occurs in a
string literal of this file). -/
def lbrace : Char := Char.ofNat 123

/-- The character `}`. -/
def rbrace : Char := Char.ofNat 125

/-- The loop body of `paramExtractAlg` (Go: `for _, c := range input`),
with the two mutable locals `res` and `buildStr` made explicit.
Note the source resets `buildStr` on `{` but does NOT reset it on `}`. -/
def paramLoop : List Char → List String → List Char → List String
  | [], res, _buildStr => res
  | c :: rest, res, buildStr =>
    if c = lbrace then paramLoop rest res []
    else if c = rbrace then paramLoop rest (res ++ [String.mk buildStr]) buildStr
    else paramLoop rest res (buildStr ++ [c])

/-- Go `paramExtractAlg(input string) []string`: extracts parameter tokens
from a path by scanning its characters. -/
def paramExtractAlg (input : String) : List String :=
  paramLoop input.data [] []

/-- A Go `map[string]string`-like mapping (the source stores `[]byte`
values obtained from strings; we keep them as the strings they came from). -/
def StrMap : Type := String → Option String

/-- The zero value of a Go map: no keys. -/
def emptyMap : StrMap := fun _ => none

/-- Go `m[k] = v`: an insert that shadows any earlier value of `k`. -/
def mapInsert (m : StrMap) (k v : String) : StrMap :=
  fun x => if x = k then some v else m x

/-- The loop `for i := 0; i < len(p); i++ { result[lp[i]] = p[i] }` of
`extractParams`: keys from the first list, values from the second,
inserted left to right. -/
def insertPairs : List String → List String → StrMap → StrMap
  | k :: ks, v :: vs, m => insertPairs ks vs (mapInsert m k v)
  | _, _, m => m

/-- Go `extractParams(path, locPath string) (map[string][]byte, error)`:
scan both strings, fail when the token counts differ, otherwise zip the
tokens of `locPath` (the names) to the tokens of `path` (the values). -/
def extractParams (path locPath : String) : Except String StrMap :=
  let p := paramExtractAlg path
  let lp := paramExtractAlg locPath
  if p.length ≠ lp.length then
    Except.error "invalid URL params"
  else
    Except.ok (insertPairs lp p emptyMap)

/-- Go `HandlingMode` is a bool; `Sync HandlingMode = false`. -/
def Sync : Bool := false

/-- Go `Async HandlingMode = true`. -/
def Async : Bool := true

/-- The four `RequestMethod` constants of the source. -/
def get : String := "GET"

def post : String := "POST"

def put : String := "PUT"

def delete : String := "DELETE"

/-- Go `var RoutePrefix = "/api"` (renamed here). -/
def routeRoot : String := "/api"

/-- Go `RouteInfo`.  The handler function is opaque to the router, so it is
modelled by an identifier; the dispatch outcome records which identifier
was invoked. -/
structure RouteInfo where
  Mode : Bool
  Endpoint : String
  Method : String
  AuthRequired : Bool
  HandlerF : Nat
deriving Repr, DecidableEq

/-- Go `MapGet`: `routes = append(routes, &RouteInfo{mode, RoutePrefix + path, get, bool(auth), f})`. -/
def MapGet (mode : Bool) (path : String) (auth : Bool) (f : Nat)
    (routes : List RouteInfo) : List RouteInfo :=
  routes ++ [⟨mode, routeRoot ++ path, get, auth, f⟩]

/-- Go `MapPost`. -/
def MapPost (mode : Bool) (path : String) (auth : Bool) (f : Nat)
    (routes : List RouteInfo) : List RouteInfo :=
  routes ++ [⟨mode, routeRoot ++ path, post, auth, f⟩]

/-- Go `MapPut`. -/
def MapPut (mode : Bool) (path : String) (auth : Bool) (f : Nat)
    (routes : List RouteInfo) : List RouteInfo :=
  routes ++ [⟨mode, routeRoot ++ path, put, auth, f⟩]

/-- Go `MapDelete`. -/
def MapDelete (mode : Bool) (path : String) (auth : Bool) (f : Nat)
    (routes : List RouteInfo) : List RouteInfo :=
  routes ++ [⟨mode, routeRoot ++ path, delete, auth, f⟩]

/-- Go `RequestBody`: the per-request context handed to middleware and the
handler.  `JsonData` holds bytes, `Params` the extracted bindings, `Claims`
a map left for middleware to populate. -/
structure RequestBody where
  JsonData : List UInt8
  Params : StrMap
  Claims : StrMap

/-- Go `io.Reader.Read(p []byte)` semantics on slices-as-lists: at most
`buf.length` bytes of `src` are copied into the front of `buf`; the rest of
`buf` is unchanged and the buffer keeps its length.  (In the source the
buffer is the zero value `nil`, so nothing is ever read.) -/
def goRead (src buf : List UInt8) : List UInt8 :=
  src.take buf.length ++ buf.drop src.length

/-- A middleware, as far as the router observes it: it may mutate the
request context it is handed (the response writer and raw request it also
receives in Go are side channels the router never reads back). -/
def Mw : Type := RequestBody → RequestBody

/-- The latency statistics of the adaptive variant: the four package-level
`int64` variables of the source. -/
structure OptState where
  avarageResMs : Int
  totalRequest : Int
  resetAt : Int
  startOptimizeAt : Int
deriving Repr, DecidableEq

/-- The initial values of the package-level variables:
`avarageResMs = 0`, `totalRequest = 0`, `resetAt = 9223372036054775807`,
`startOptimizeAt = 1000`. -/
def initOptState : OptState :=
  { avarageResMs := 0, totalRequest := 0,
    resetAt := 9223372036054775807, startOptimizeAt := 1000 }

/-- Go `SetOptimizationThreshold(threshold int64)`. -/
def SetOptimizationThreshold (threshold : Int) (s : OptState) : OptState :=
  { s with startOptimizeAt := threshold }

/-- What one call of `handle` did: `notFound` is `WriteHeader(404)` with no
body, `badRequest` is `WriteHeader(400)` plus the error text as body, and
`dispatched` records the single handler invocation — which handler, in
which mode (`true` = spawned asynchronously, `false` = run inline), the
context as constructed by the router (the value passed into the middleware
chain) and the context after the middleware chain (the value the handler
receives). -/
inductive Outcome where
  | notFound
  | badRequest (msg : String)
  | dispatched (handler : Nat) (async : Bool) (ctx0 ctxH : RequestBody)

/-- The bytes the router itself wrote at the boundary: status code and
body.  `none` for a dispatched request, whose response is produced by
middleware/handler through the response writer. -/
def Outcome.response : Outcome → Option (Nat × String)
  | .notFound => some (404, "")
  | .badRequest msg => some (400, msg)
  | .dispatched _ _ _ _ => none

/-- The handler identifier a dispatch invoked, if any. -/
def Outcome.handlerOf : Outcome → Option Nat
  | .dispatched h _ _ _ => some h
  | _ => none

/-- The context constructed by the router and passed to the middleware
chain, if the request was dispatched. -/
def Outcome.ctxOf : Outcome → Option RequestBody
  | .dispatched _ _ c _ => some c
  | _ => none

/-- Whether the dispatch (if any) spawned the handler asynchronously. -/
def Outcome.asyncOf : Outcome → Option Bool
  | .dispatched _ a _ _ => some a
  | _ => none

/-- The statistics block of `handle` (adaptive variant, the lines between
the mutex lock and unlock), as one function of the pre-state, the measured
`elapsed` time and the matched route's mode.  In source order: the reset
check (`totalRequest == resetAt || avarageResMs == resetAt` zeroes both
counters), the promotion check (`totalRequest > startOptimizeAt && elapsed
> avarageResMs && v.Mode != Async` flips the mode to `Async`), then
`totalRequest++` and `avarageResMs += elapsed / totalRequest` with Go's
truncating `int64` division.  Returns the new statistics and the route's
new mode. -/
def optStep (s : OptState) (elapsed : Int) (mode : Bool) : OptState × Bool :=
  let tr0 : Int :=
    if s.totalRequest = s.resetAt ∨ s.avarageResMs = s.resetAt then 0
    else s.totalRequest
  let avg0 : Int :=
    if s.totalRequest = s.resetAt ∨ s.avarageResMs = s.resetAt then 0
    else s.avarageResMs
  let mode' : Bool :=
    if tr0 > s.startOptimizeAt ∧ elapsed > avg0 ∧ mode ≠ Async then Async
    else mode
  let tr' : Int := tr0 + 1
  let avg' : Int := avg0 + Int.tdiv elapsed tr'
  ({ s with totalRequest := tr', avarageResMs := avg' }, mode')

/-- Go `handle(resw, req)` of the adaptive variant (`src/httpfly.go`),
with the globals explicit: the middleware list, the statistics state and
the route table go in; the (possibly mode-promoted) route table, the
updated statistics and the outcome come out.  `method`, `path` and `body`
are the request, `elapsed` is the duration the `time.Since(t)` measurement
reports for this request (for an async route that is only the spawn time,
since the goroutine is not awaited).  The loop over `routes` returns on
the first route whose endpoint string equals the path; the statistics
block `optStep` runs only on the dispatch path, after the handler
invocation (inline or spawned). -/
def handle (mws : List Mw) (s : OptState) (method path : String)
    (body : List UInt8) (elapsed : Int) :
    List RouteInfo → List RouteInfo × OptState × Outcome
  | [] => ([], s, Outcome.notFound)
  | v :: rest =>
    if path = v.Endpoint then
      if method ≠ v.Method then
        (v :: rest, s, Outcome.notFound)
      else
        match extractParams path v.Endpoint with
        | Except.error e => (v :: rest, s, Outcome.badRequest e)
        | Except.ok params =>
          let rq0 : RequestBody :=
            { JsonData := goRead body [], Params := params, Claims := emptyMap }
          let rqH : RequestBody := mws.foldl (fun c m => m c) rq0
          ({ v with Mode := (optStep s elapsed v.Mode).2 } :: rest,
           (optStep s elapsed v.Mode).1,
           Outcome.dispatched v.HandlerF v.Mode rq0 rqH)
    else
      match handle mws s method path body elapsed rest with
      | (rest', s', o) => (v :: rest', s', o)

/-- One request of a run: method, path, body, and the externally measured
duration of its handling. -/
structure Req where
  method : String
  path : String
  body : List UInt8
  elapsed : Int

/-- A sequence of calls of `handle`, threading the route table and the
statistics (the outcomes are responses on the wire and are dropped). -/
def runRequests (mws : List Mw) :
    List RouteInfo → OptState → List Req → List RouteInfo × OptState
  | routes, s, [] => (routes, s)
  | routes, s, r :: rest =>
    match handle mws s r.method r.path r.body r.elapsed routes with
    | (routes', s', _) => runRequests mws routes' s' rest

/-- Modelled from the claim text for the scanner (claim C2 / spec section
4.1), for comparison with the source's `paramExtractAlg`: the same scan,
except that ordinary characters are captured "only while inside a
brace-delimited span", which requires an explicit inside-the-span flag
(entered on the opening brace, left on the closing brace). -/
def claimLoop : List Char → List String → List Char → Bool → List String
  | [], res, _buildStr, _inside => res
  | c :: rest, res, buildStr, inside =>
    if c = lbrace then claimLoop rest res [] true
    else if c = rbrace then claimLoop rest (res ++ [String.mk buildStr]) buildStr false
    else claimLoop rest res (if inside then buildStr ++ [c] else buildStr) inside

/-- The claim-described scanner on a string (see `claimLoop`); the scan
starts outside any span. -/
def paramExtractClaimed (input : String) : List String :=
  claimLoop input.data [] [] false

/-- The scanner as the amended claim describes it, in direct
(non-accumulator) style: an opening brace restarts the capture buffer, a
closing brace emits the buffer as a token without clearing it, and every
other character is appended to the buffer unconditionally, whether or not
the scan is inside a brace-delimited span. -/
def scanUncond : List Char → List Char → List String
  | [], _buildStr => []
  | c :: rest, buildStr =>
    if c = lbrace then scanUncond rest []
    else if c = rbrace then String.mk buildStr :: scanUncond rest buildStr
    else scanUncond rest (buildStr ++ [c])

/-- The template string of the claim C1 scenario: `/users/` followed by
the placeholder `id` in braces. -/
def idTemplate : String :=
  "/users/" ++ String.mk [lbrace, 'i', 'd', rbrace]

/-- The route table of the claim C1 scenario: `MapGet(Sync, "/users/{id}",
NoAuth, f)` for a handler `f`, registered on an empty table. -/
def usersRoutes (f : Nat) : List RouteInfo :=
  MapGet Sync idTemplate false f []

/-- A one-route table with the placeholder-free endpoint `/api/x`,
registered synchronous. -/
def xRoutes : List RouteInfo :=
  MapGet Sync "/x" false 3 []

/-- A one-route table with the placeholder-free endpoint `/api/y`,
registered asynchronous. -/
def yRoutes : List RouteInfo :=
  MapGet Async "/y" false 4 []

/-- A `GET /api/x` request with empty body and a prescribed measured
duration. -/
def reqX (e : Int) : Req :=
  { method := get, path := routeRoot ++ "/x", body := [], elapsed := e }

/-- The statistics state after `SetOptimizationThreshold(5)` at process
start (the promotion threshold of the claim C5 scenario). -/
def thr5 : OptState :=
  SetOptimizationThreshold 5 initOptState

/-- The bindings `extractParams` produces when a string is matched against
itself (as the dispatcher always does, having already checked
`req.URL.Path == v.Endpoint`). -/
def selfParams (p : String) : StrMap :=
  insertPairs (paramExtractAlg p) (paramExtractAlg p) emptyMap

/-- Two routes registered on the same endpoint string `/api/d`: first a
GET route, then a DELETE route (the claim C4 scenario). -/
def dRoutes : List RouteInfo :=
  MapDelete Sync "/d" false 2 (MapGet Sync "/d" false 1 [])

/-- Matching a string against itself always succeeds: the two scans are
the same scan, so the length test cannot fail. -/
theorem extractParams_self (p : String) :
    extractParams p p = Except.ok (selfParams p) := by
  unfold extractParams selfParams
  simp

/-- `handle` on an empty route table falls through the loop to the 404. -/
theorem handle_nil (mws : List Mw) (s : OptState) (m p : String)
    (b : List UInt8) (e : Int) :
    handle mws s m p b e [] = ([], s, Outcome.notFound) := rfl

/-- A head route whose endpoint differs from the path is skipped: the call
behaves as the call on the tail, with the head put back in front. -/
theorem handle_cons_nomatch (mws : List Mw) (s : OptState) (m p : String)
    (b : List UInt8) (e : Int) (v : RouteInfo) (rest : List RouteInfo)
    (h : p ≠ v.Endpoint) :
    handle mws s m p b e (v :: rest) =
      (v :: (handle mws s m p b e rest).1, (handle mws s m p b e rest).2.1,
        (handle mws s m p b e rest).2.2) := by
  rw [handle]
  simp only [if_neg h]

/-- A head route whose endpoint equals the path but whose method differs
stops the scan: everything is left unchanged and a 404 is written. -/
theorem handle_cons_mismatch (mws : List Mw) (s : OptState) (m p : String)
    (b : List UInt8) (e : Int) (v : RouteInfo) (rest : List RouteInfo)
    (hp : p = v.Endpoint) (hm : m ≠ v.Method) :
    handle mws s m p b e (v :: rest) = (v :: rest, s, Outcome.notFound) := by
  rw [handle]
  simp [hp, hm]

/-- A head route whose endpoint equals the path and whose method matches
dispatches: the parameter extraction is a self-match, the context is
built, the middleware chain is folded over it, and the statistics block
`optStep` updates the state and the route's mode. -/
theorem handle_cons_dispatch (mws : List Mw) (s : OptState) (m p : String)
    (b : List UInt8) (e : Int) (v : RouteInfo) (rest : List RouteInfo)
    (hp : p = v.Endpoint) (hm : m = v.Method) :
    handle mws s m p b e (v :: rest) =
      ({ v with Mode := (optStep s e v.Mode).2 } :: rest,
        (optStep s e v.Mode).1,
        Outcome.dispatched v.HandlerF v.Mode
          { JsonData := goRead b [], Params := selfParams p, Claims := emptyMap }
          (mws.foldl (fun c mw => mw c)
            { JsonData := goRead b [], Params := selfParams p, Claims := emptyMap })) := by
  subst hp
  subst hm
  rw [handle]
  simp [extractParams_self]

/-- A block of non-matching routes in front is passed over unchanged. -/
theorem handle_append_nomatch (mws : List Mw) (s : OptState) (m p : String)
    (b : List UInt8) (e : Int) (pre rest : List RouteInfo)
    (hpre : ∀ u ∈ pre, p ≠ u.Endpoint) :
    handle mws s m p b e (pre ++ rest) =
      (pre ++ (handle mws s m p b e rest).1, (handle mws s m p b e rest).2.1,
        (handle mws s m p b e rest).2.2) := by
  induction pre with
  | nil => simp
  | cons u pre ih =>
    have hu : p ≠ u.Endpoint := hpre u (List.mem_cons_self u pre)
    have hrest : ∀ w ∈ pre, p ≠ w.Endpoint := fun w hw =>
      hpre w (List.mem_cons_of_mem u hw)
    rw [List.cons_append, handle_cons_nomatch mws s m p b e u (pre ++ rest) hu,
      ih hrest]
    simp

/-- When no route's endpoint equals the path, the whole call leaves the
table and the statistics unchanged and writes a 404. -/
theorem handle_nomatch_all (mws : List Mw) (s : OptState) (m p : String)
    (b : List UInt8) (e : Int) (routes : List RouteInfo)
    (h : ∀ v ∈ routes, p ≠ v.Endpoint) :
    handle mws s m p b e routes = (routes, s, Outcome.notFound) := by
  have h2 := handle_append_nomatch mws s m p b e routes [] h
  rw [handle_nil] at h2
  simpa using h2

/-- The statistics block never flips a mode that is already `Async`: the
promotion guard requires `v.Mode != Async`. -/
theorem optStep_async (s : OptState) (e : Int) :
    (optStep s e Async).2 = Async := by
  simp [optStep, Async]

/-- One `handle` call relates the old and the new route table pointwise,
and no route is ever demoted from `Async`. -/
theorem handle_mode_mono (mws : List Mw) (s : OptState) (m p : String)
    (b : List UInt8) (e : Int) (routes : List RouteInfo) :
    List.Forall₂ (fun r r' => r.Mode = Async → r'.Mode = Async) routes
      (handle mws s m p b e routes).1 := by
  induction routes with
  | nil => simp [handle_nil]
  | cons v rest ih =>
    by_cases hp : p = v.Endpoint
    · by_cases hm : m = v.Method
      · rw [handle_cons_dispatch mws s m p b e v rest hp hm]
        refine List.Forall₂.cons ?_ ?_
        · intro h
          rw [h]
          exact optStep_async s e
        · exact List.forall₂_same.mpr (fun r _ h => h)
      · rw [handle_cons_mismatch mws s m p b e v rest hp hm]
        exact List.forall₂_same.mpr (fun r _ h => h)
    · rw [handle_cons_nomatch mws s m p b e v rest hp]
      exact List.Forall₂.cons (fun h => h) ih

/-- The once-`Async`-stays-`Async` relation composes across steps. -/
theorem forall₂_mode_trans {l1 l2 l3 : List RouteInfo}
    (h1 : List.Forall₂ (fun r r' => r.Mode = Async → r'.Mode = Async) l1 l2)
    (h2 : List.Forall₂ (fun r r' => r.Mode = Async → r'.Mode = Async) l2 l3) :
    List.Forall₂ (fun r r' => r.Mode = Async → r'.Mode = Async) l1 l3 := by
  induction h1 generalizing l3 with
  | nil => exact h2
  | cons ha hb ih =>
    cases h2 with
    | cons hc hd => exact List.Forall₂.cons (fun h => hc (ha h)) (ih hd)

/-- Across any whole run of requests, no route is ever demoted from
`Async`. -/
theorem runRequests_mode_mono (mws : List Mw) (routes : List RouteInfo)
    (s : OptState) (reqs : List Req) :
    List.Forall₂ (fun r r' => r.Mode = Async → r'.Mode = Async) routes
      (runRequests mws routes s reqs).1 := by
  induction reqs generalizing routes s with
  | nil =>
    simp [runRequests]
  | cons r rest ih =>
    rcases he : handle mws s r.method r.path r.body r.elapsed routes with ⟨r1, s1, o1⟩
    have step := handle_mode_mono mws s r.method r.path r.body r.elapsed routes
    rw [he] at step
    rw [runRequests, he]
    exact forall₂_mode_trans step (ih r1 s1)

/-- Association-list lookup distributes over append, first list first. -/
theorem lookup_append (l1 l2 : List (String × String)) (k : String) :
    (l1 ++ l2).lookup k =
      (match l1.lookup k with
       | some v => some v
       | none => l2.lookup k) := by
  induction l1 with
  | nil => simp [List.lookup]
  | cons kv l1 ih =>
    by_cases hk : k = kv.1
    · simp [List.lookup, hk]
    · have hb : (k == kv.1) = false := beq_false_of_ne hk
      simp [List.lookup, hb, ih]

/-- The map the zip loop of `extractParams` builds, characterised by
lookup: a key's value is the value of its LAST occurrence among the
zipped pairs (Go's map overwrite), i.e. the first hit in the reversed
pair list; keys never inserted fall through to the initial map. -/
theorem insertPairs_apply (ks vs : List String) (m : StrMap) (k : String) :
    insertPairs ks vs m k =
      (match ((ks.zip vs).reverse).lookup k with
       | some v => some v
       | none => m k) := by
  induction ks generalizing vs m with
  | nil => simp [insertPairs, List.lookup]
  | cons k0 ks ih =>
    cases vs with
    | nil => simp [insertPairs, List.lookup]
    | cons v0 vs =>
      rw [insertPairs, ih]
      simp only [List.zip_cons_cons, List.reverse_cons, lookup_append]
      by_cases hk : k = k0
      · subst hk
        cases hl : ((ks.zip vs).reverse).lookup k <;>
          simp [List.lookup, mapInsert]
      · have hb : (k == k0) = false := beq_false_of_ne hk
        cases hl : ((ks.zip vs).reverse).lookup k <;>
          simp [List.lookup, hb, mapInsert, hk]

/-- The accumulator loop of the source equals the direct-style scan that
appends ordinary characters unconditionally. -/
theorem paramLoop_scanUncond (cs : List Char) (res : List String)
    (buildStr : List Char) :
    paramLoop cs res buildStr = res ++ scanUncond cs buildStr := by
  induction cs generalizing res buildStr with
  | nil => simp [paramLoop, scanUncond]
  | cons c rest ih =>
    by_cases h1 : c = lbrace
    · simp [paramLoop, scanUncond, h1, ih]
    · have hrl : ¬ (rbrace = lbrace) := by decide
      by_cases h2 : c = rbrace
      · simp [paramLoop, scanUncond, h1, h2, ih, hrl]
      · simp [paramLoop, scanUncond, h1, h2, ih]

/-- When at most `startOptimizeAt` requests have been counted (and the
threshold is not negative), the promotion guard cannot fire. -/
theorem optStep_no_promote (s : OptState) (e : Int) (mode : Bool)
    (h1 : s.totalRequest ≤ s.startOptimizeAt) (h2 : 0 ≤ s.startOptimizeAt) :
    (optStep s e mode).2 = mode := by
  unfold optStep
  by_cases hr : s.totalRequest = s.resetAt ∨ s.avarageResMs = s.resetAt
  · have hA : ¬ ((0 : Int) > s.startOptimizeAt ∧ e > (0 : Int) ∧ mode ≠ Async) :=
      fun hh => absurd hh.1 (not_lt.mpr h2)
    simp [hr, hA]
  · have hA : ¬ (s.totalRequest > s.startOptimizeAt ∧ e > s.avarageResMs ∧ mode ≠ Async) :=
      fun hh => absurd hh.1 (not_lt.mpr h1)
    simp [hr, hA]

/-- Under the conditions of `optStep_no_promote`, a whole `handle` call
leaves every route's mode as it was. -/
theorem handle_modes_preserved (mws : List Mw) (s : OptState) (m p : String)
    (b : List UInt8) (e : Int) (routes : List RouteInfo)
    (h1 : s.totalRequest ≤ s.startOptimizeAt) (h2 : 0 ≤ s.startOptimizeAt) :
    ((handle mws s m p b e routes).1).map (fun r => r.Mode) =
      routes.map (fun r => r.Mode) := by
  induction routes with
  | nil => simp [handle_nil]
  | cons v rest ih =>
    by_cases hp : p = v.Endpoint
    · by_cases hm : m = v.Method
      · rw [handle_cons_dispatch mws s m p b e v rest hp hm]
        simp [optStep_no_promote s e v.Mode h1 h2]
      · rw [handle_cons_mismatch mws s m p b e v rest hp hm]
    · rw [handle_cons_nomatch mws s m p b e v rest hp]
      simpa using ih

/-- Claim C1, counterexample: with `GET /api/users/(id)` registered (the
placeholder written in braces) and no auth, the request `GET
/api/users/42` is NOT dispatched, contrary to the claim: route lookup
compares the request path with the endpoint string for exact equality, so
the result is the 404 outcome, an empty 404 response on the wire, and no
handler invocation at all. -/
theorem claim_C1_counterexample :
    (handle [] initOptState get (routeRoot ++ "/users/42") [] 0 (usersRoutes 7)).2.2
        = Outcome.notFound ∧
    ((handle [] initOptState get (routeRoot ++ "/users/42") [] 0 (usersRoutes 7)).2.2).response
        = some (404, "") ∧
    ((handle [] initOptState get (routeRoot ++ "/users/42") [] 0 (usersRoutes 7)).2.2).handlerOf
        = none :=
  ⟨rfl, rfl, rfl⟩

/-- Claim C1 as amended: for a route registered as `GET /api/users/(id)`
with no auth, a request `GET /api/users/42` is not dispatched (404,
handler never invoked), because dispatch requires the request path to
equal the endpoint string exactly; the only dispatched path is the
literal template string itself, for which the handler is invoked exactly
once, synchronously, with bindings mapping the name `id` to the string
`"id"`. -/
theorem claim_C1_amended (f : Nat) (body : List UInt8) (e : Int)
    (s : OptState) (mws : List Mw) :
    (handle mws s get (routeRoot ++ "/users/42") body e (usersRoutes f)).2.2
        = Outcome.notFound ∧
    ((handle mws s get (routeRoot ++ idTemplate) body e (usersRoutes f)).2.2).handlerOf
        = some f ∧
    (((handle mws s get (routeRoot ++ idTemplate) body e (usersRoutes f)).2.2).ctxOf).map
        (fun c => c.Params "id") = some (some "id") ∧
    ((handle mws s get (routeRoot ++ idTemplate) body e (usersRoutes f)).2.2).asyncOf
        = some Sync :=
  ⟨rfl, rfl, rfl, rfl⟩

/-- Claim C2, counterexample: `paramExtractAlg` does NOT capture only
inside brace-delimited spans.  On the input `"a"` followed by a closing
brace — an input containing no opening brace, hence no placeholder span at
all — the source's scan returns the token `"a"`, while the scan the claim
describes (capturing only inside a span, modelled by `paramExtractClaimed`)
returns the empty token. -/
theorem claim_C2_counterexample :
    paramExtractAlg (String.mk ['a', rbrace]) = ["a"] ∧
    (String.mk ['a', rbrace]).data.count lbrace = 0 ∧
    paramExtractClaimed (String.mk ['a', rbrace]) = [""] := by
  refine ⟨?_, ?_, ?_⟩ <;> decide

/-- Claim C2 as amended: the scan moves left to right; an opening brace
starts a fresh capture (discarding any partially built token), a closing
brace appends the currently captured token to the result sequence
(without clearing the buffer), and every other character is appended to
the capture buffer unconditionally — whether or not the scan is inside a
brace-delimited span — so characters outside placeholder spans can appear
in returned tokens.  Formally, the source scan equals the direct-style
scan `scanUncond` that implements exactly this description. -/
theorem claim_C2_amended (s : String) :
    paramExtractAlg s = scanUncond s.data [] := by
  simpa using paramLoop_scanUncond s.data [] []

/-- Claim C3: a request whose path equals no registered endpoint, and a
request whose path equals the endpoint of the first matching route but
whose method differs from that route's method, both produce the identical
boundary response: status 404 with an empty body. -/
theorem claim_C3 :
    (∀ (mws : List Mw) (s : OptState) (m p : String) (b : List UInt8)
        (e : Int) (routes : List RouteInfo),
        (∀ v ∈ routes, p ≠ v.Endpoint) →
        ((handle mws s m p b e routes).2.2).response = some (404, "")) ∧
    (∀ (mws : List Mw) (s : OptState) (m p : String) (b : List UInt8)
        (e : Int) (pre : List RouteInfo) (v : RouteInfo) (rest : List RouteInfo),
        (∀ u ∈ pre, p ≠ u.Endpoint) → p = v.Endpoint → m ≠ v.Method →
        ((handle mws s m p b e (pre ++ v :: rest)).2.2).response = some (404, "")) := by
  constructor
  · intro mws s m p b e routes h
    rw [handle_nomatch_all mws s m p b e routes h]
    rfl
  · intro mws s m p b e pre v rest hpre hp hm
    rw [handle_append_nomatch mws s m p b e pre (v :: rest) hpre,
      handle_cons_mismatch mws s m p b e v rest hp hm]
    rfl

/-- Claim C3, witness: `GET /api/nonexistent` against the `/api/x` table,
and `DELETE /api/x` against the same table (only GET registered), both
yield exactly the 404-with-empty-body response. -/
theorem claim_C3_witness :
    ((handle [] initOptState get (routeRoot ++ "/nonexistent") [] 0 xRoutes).2.2).response
        = some (404, "") ∧
    ((handle [] initOptState delete (routeRoot ++ "/x") [] 0 xRoutes).2.2).response
        = some (404, "") := by
  constructor
  · exact claim_C3.1 [] initOptState get (routeRoot ++ "/nonexistent") [] 0 xRoutes
      (by decide)
  · exact claim_C3.2 [] initOptState delete (routeRoot ++ "/x") [] 0 []
      ⟨Sync, routeRoot ++ "/x", get, false, 3⟩ [] (by simp) rfl (by decide)

/-- Claim C4: route resolution is first-match in registration order with
no fallthrough: when the first route whose endpoint equals the path has a
different method, the scan ends with a 404 and the table and statistics
are unchanged — even when a later route `v2` has the same endpoint and the
request's method, that route is never invoked. -/
theorem claim_C4 (mws : List Mw) (s : OptState) (m p : String)
    (b : List UInt8) (e : Int) (pre : List RouteInfo) (v v2 : RouteInfo)
    (rest : List RouteInfo) (hpre : ∀ u ∈ pre, p ≠ u.Endpoint)
    (hp : p = v.Endpoint) (hm : m ≠ v.Method) (_hv2 : v2 ∈ rest)
    (_hv2p : v2.Endpoint = p) (_hv2m : v2.Method = m) :
    handle mws s m p b e (pre ++ v :: rest) =
      (pre ++ v :: rest, s, Outcome.notFound) := by
  rw [handle_append_nomatch mws s m p b e pre (v :: rest) hpre,
    handle_cons_mismatch mws s m p b e v rest hp hm]

/-- Claim C4, witness: with `GET /api/d` registered before `DELETE
/api/d`, the request `DELETE /api/d` is answered 404 and the second route
is never reached. -/
theorem claim_C4_witness :
    handle [] initOptState delete (routeRoot ++ "/d") [] 0 dRoutes =
      (dRoutes, initOptState, Outcome.notFound) :=
  claim_C4 [] initOptState delete (routeRoot ++ "/d") [] 0 []
    ⟨Sync, routeRoot ++ "/d", get, false, 1⟩
    ⟨Sync, routeRoot ++ "/d", delete, false, 2⟩
    [⟨Sync, routeRoot ++ "/d", delete, false, 2⟩]
    (by simp) rfl (by decide) (List.mem_singleton.mpr rfl) rfl rfl

/-- Claim C5, counterexample: with the promotion threshold set to 5,
after six synchronous `GET /api/x` requests with measured durations 10,
10, 10, 10, 10, 100, the running average before the sixth request is 22
and the sixth duration 100 exceeds it — yet the route's mode is still
`Sync`, because the promotion guard compares the pre-increment counter
(5 > 5 fails).  The claim's "after 6 requests the mode becomes Async" is
false on the code. -/
theorem claim_C5_counterexample :
    (runRequests [] xRoutes thr5 ([10, 10, 10, 10, 10].map reqX)).2.avarageResMs = 22 ∧
    ((100 : Int) > 22) ∧
    (runRequests [] xRoutes thr5 ([10, 10, 10, 10, 10, 100].map reqX)).1.map
      (fun r => r.Mode) = [Sync] := by
  refine ⟨?_, ?_, ?_⟩ <;> decide

/-- Claim C5 as amended: with the promotion threshold set to 5, promotion
cannot happen while at most 5 requests have been counted (the guard reads
the counter before incrementing it), so the earliest promotion is on the
7th request; a 7-request run whose last duration exceeds the running
average does flip the mode to `Async`; and once a route is `Async` it
remains `Async` across every subsequent request — no transition back to
`Sync` ever occurs. -/
theorem claim_C5_amended :
    (∀ (mws : List Mw) (routes : List RouteInfo) (s : OptState) (reqs : List Req),
        List.Forall₂ (fun r r' => r.Mode = Async → r'.Mode = Async) routes
          (runRequests mws routes s reqs).1) ∧
    (∀ (mws : List Mw) (s : OptState) (m p : String) (b : List UInt8)
        (e : Int) (routes : List RouteInfo),
        s.totalRequest ≤ s.startOptimizeAt → 0 ≤ s.startOptimizeAt →
        ((handle mws s m p b e routes).1).map (fun r => r.Mode) =
          routes.map (fun r => r.Mode)) ∧
    (runRequests [] xRoutes thr5 ([10, 10, 10, 10, 10, 10, 100].map reqX)).1.map
      (fun r => r.Mode) = [Async] := by
  refine ⟨runRequests_mode_mono, handle_modes_preserved, ?_⟩
  decide

/-- Claim C5, witness for the amended hypotheses: at the initial state
(counter 0, threshold 1000) a single dispatched request leaves the one
route of the `/api/x` table in `Sync` mode. -/
theorem claim_C5_amended_witness :
    ((handle [] initOptState get (routeRoot ++ "/x") [] 0 xRoutes).1).map
      (fun r => r.Mode) = xRoutes.map (fun r => r.Mode) :=
  claim_C5_amended.2.1 [] initOptState get (routeRoot ++ "/x") [] 0 xRoutes
    (by decide) (by decide)

/-- Claim C6: the running average is updated by first incrementing the
counter and then adding `elapsed` divided (truncating) by the new
counter; and the run over measured durations 10, 20, 30 starting from
zero yields exactly the value of this incremental formula, 30, which is
not the true arithmetic mean 20. -/
theorem claim_C6 :
    (∀ (s : OptState) (e : Int) (mode : Bool),
        s.totalRequest ≠ s.resetAt → s.avarageResMs ≠ s.resetAt →
        (optStep s e mode).1.totalRequest = s.totalRequest + 1 ∧
        (optStep s e mode).1.avarageResMs =
          s.avarageResMs + Int.tdiv e (s.totalRequest + 1)) ∧
    ((runRequests [] xRoutes initOptState ([10, 20, 30].map reqX)).2.avarageResMs = 30 ∧
      (runRequests [] xRoutes initOptState ([10, 20, 30].map reqX)).2.totalRequest = 3 ∧
      (10 + 20 + 30) / 3 = (20 : Int) ∧ (30 : Int) ≠ 20) := by
  constructor
  · intro s e mode h1 h2
    have hr : ¬ (s.totalRequest = s.resetAt ∨ s.avarageResMs = s.resetAt) :=
      not_or.mpr ⟨h1, h2⟩
    constructor <;> simp [optStep, hr]
  · refine ⟨?_, ?_, ?_, ?_⟩ <;> decide

/-- Claim C6, witness: at the initial state a dispatched request with
measured duration 10 sets the counter to 1 and the average to
`0 + tdiv 10 1`. -/
theorem claim_C6_witness :
    (optStep initOptState 10 Sync).1.totalRequest = initOptState.totalRequest + 1 ∧
    (optStep initOptState 10 Sync).1.avarageResMs =
      initOptState.avarageResMs + Int.tdiv 10 (initOptState.totalRequest + 1) :=
  claim_C6.1 initOptState 10 Sync (by decide) (by decide)

/-- Claim C7, counterexample: a dispatch of a route whose mode is `Async`
does NOT leave the latency statistics unchanged: one `GET /api/y` request
to the async-registered route increments `totalRequest` from 0 to 1 (and
folds the measured spawn time into the average), even though the handler
was spawned, not awaited. -/
theorem claim_C7_counterexample :
    (handle [] initOptState get (routeRoot ++ "/y") [] 0 yRoutes).2.1.totalRequest = 1 ∧
    initOptState.totalRequest = 0 ∧
    ((handle [] initOptState get (routeRoot ++ "/y") [] 0 yRoutes).2.2).asyncOf
        = some Async := by
  refine ⟨?_, ?_, ?_⟩ <;> decide

/-- Claim C7 as amended: the latency statistics are recorded, and the
promotion rule evaluated, after EVERY dispatched invocation — synchronous
or asynchronous alike (for an async route the measured time covers only
the spawn, since the dispatcher does not wait) — and never on the 404
paths; a dispatch of a route whose mode is `Async` updates the statistics
but leaves the route table (in particular every mode) unchanged. -/
theorem claim_C7_amended :
    (∀ (mws : List Mw) (s : OptState) (m p : String) (b : List UInt8)
        (e : Int) (pre : List RouteInfo) (v : RouteInfo) (rest : List RouteInfo),
        (∀ u ∈ pre, p ≠ u.Endpoint) → p = v.Endpoint → m = v.Method →
        (handle mws s m p b e (pre ++ v :: rest)).2.1 = (optStep s e v.Mode).1 ∧
        (v.Mode = Async →
          (handle mws s m p b e (pre ++ v :: rest)).1 = pre ++ v :: rest)) ∧
    (∀ (mws : List Mw) (s : OptState) (m p : String) (b : List UInt8)
        (e : Int) (routes : List RouteInfo),
        (∀ u ∈ routes, p ≠ u.Endpoint) →
        (handle mws s m p b e routes).2.1 = s) ∧
    (∀ (mws : List Mw) (s : OptState) (m p : String) (b : List UInt8)
        (e : Int) (pre : List RouteInfo) (v : RouteInfo) (rest : List RouteInfo),
        (∀ u ∈ pre, p ≠ u.Endpoint) → p = v.Endpoint → m ≠ v.Method →
        (handle mws s m p b e (pre ++ v :: rest)).2.1 = s) := by
  refine ⟨?_, ?_, ?_⟩
  · intro mws s m p b e pre v rest hpre hp hm
    rw [handle_append_nomatch mws s m p b e pre (v :: rest) hpre,
      handle_cons_dispatch mws s m p b e v rest hp hm]
    rcases v with ⟨vm, vend, vmeth, vauth, vf⟩
    refine ⟨rfl, ?_⟩
    intro hAsync
    simp only at hAsync
    subst hAsync
    rw [optStep_async]
  · intro mws s m p b e routes h
    rw [handle_nomatch_all mws s m p b e routes h]
  · intro mws s m p b e pre v rest hpre hp hm
    rw [handle_append_nomatch mws s m p b e pre (v :: rest) hpre,
      handle_cons_mismatch mws s m p b e v rest hp hm]

/-- Claim C7, witness: the async `/api/y` dispatch records statistics
exactly as `optStep` on the pre-state and leaves the table unchanged. -/
theorem claim_C7_amended_witness :
    (handle [] initOptState get (routeRoot ++ "/y") [] 0 yRoutes).2.1
        = (optStep initOptState 0 Async).1 ∧
    (handle [] initOptState get (routeRoot ++ "/y") [] 0 yRoutes).1 = yRoutes := by
  have h := claim_C7_amended.1 [] initOptState get (routeRoot ++ "/y") [] 0 []
    ⟨Async, routeRoot ++ "/y", get, false, 4⟩ [] (by simp) rfl rfl
  exact ⟨h.1, h.2 rfl⟩

/-- Claim C8: when the placeholder sequences extracted from the request
path and the template have different lengths, `extractParams` fails with
the `invalid URL params` error (and carries no bindings); on success the
returned map sends each template placeholder name to the path token at
the same position, and a name occurring more than once gets the value of
its last occurrence — the later binding silently overwrites the earlier
one (lookup in the reversed zip). -/
theorem claim_C8 :
    (∀ p t : String,
        (paramExtractAlg p).length ≠ (paramExtractAlg t).length →
        extractParams p t = Except.error "invalid URL params") ∧
    (∀ p t : String,
        (paramExtractAlg p).length = (paramExtractAlg t).length →
        ∀ k : String,
          ∃ mp, extractParams p t = Except.ok mp ∧
            mp k = (((paramExtractAlg t).zip (paramExtractAlg p)).reverse).lookup k) := by
  constructor
  · intro p t h
    simp [extractParams, h]
  · intro p t h k
    refine ⟨insertPairs (paramExtractAlg t) (paramExtractAlg p) emptyMap, ?_, ?_⟩
    · simp [extractParams, h]
    · rw [insertPairs_apply]
      cases hl : (((paramExtractAlg t).zip (paramExtractAlg p)).reverse).lookup k <;>
        simp [emptyMap]

/-- Claim C8, witness: `/a` against the one-placeholder template fails
with the error; and matching a two-token path against a template that
uses the name `x` twice binds `x` to the SECOND path token `"2"` — the
later binding overwrote the earlier `"1"`. -/
theorem claim_C8_witness :
    extractParams "/a" (String.mk ['/', lbrace, 'x', rbrace])
        = Except.error "invalid URL params" ∧
    (∃ mp,
      extractParams
          (String.mk ['/', lbrace, '1', rbrace, '/', lbrace, '2', rbrace])
          (String.mk ['/', lbrace, 'x', rbrace, '/', lbrace, 'x', rbrace])
        = Except.ok mp ∧
      mp "x" = some "2") := by
  constructor
  · exact claim_C8.1 _ _ (by decide)
  · obtain ⟨mp, h1, h2⟩ := claim_C8.2
      (String.mk ['/', lbrace, '1', rbrace, '/', lbrace, '2', rbrace])
      (String.mk ['/', lbrace, 'x', rbrace, '/', lbrace, 'x', rbrace])
      (by decide) "x"
    refine ⟨mp, h1, ?_⟩
    rw [h2]
    decide

/-- Claim C9: evaluation at the failing input.  The dispatcher constructs
the request context with the correct bindings and an empty claims map,
but `req.Body.Read(rqbody.JsonData)` reads into the zero-length `nil`
slice, so the context's `JsonData` is ALWAYS empty — for a request with
the non-empty body `[120]` the dispatched context carries `[]`, not the
raw body bytes the claim (and the spec's intent for this line) requires. -/
theorem claim_C9_eval :
    (∀ b : List UInt8, goRead b [] = []) ∧
    ((handle [] initOptState get (routeRoot ++ "/x") [120] 0 xRoutes).2.2).handlerOf
        = some 3 ∧
    (((handle [] initOptState get (routeRoot ++ "/x") [120] 0 xRoutes).2.2).ctxOf).map
        (fun c => c.JsonData) = some [] ∧
    some ([] : List UInt8) ≠ some [120] ∧
    (((handle [] initOptState get (routeRoot ++ "/x") [120] 0 xRoutes).2.2).ctxOf).map
        (fun c => c.Claims "k") = some none := by
  refine ⟨?_, ?_, ?_, ?_, ?_⟩
  · intro b
    simp [goRead]
  · rfl
  · rfl
  · decide
  · rfl

/-- Claim C10: the 400 branch of the dispatcher is unreachable.
`extractParams` is only ever called with the request path and the endpoint
after they compared equal, a self-match always succeeds, and therefore no
call of `handle` — any middleware list, any statistics state, any request,
any route table — ever produces the `badRequest` outcome. -/
theorem claim_C10 :
    (∀ p : String, ∃ mp, extractParams p p = Except.ok mp) ∧
    (∀ (mws : List Mw) (s : OptState) (m p : String) (b : List UInt8)
        (e : Int) (routes : List RouteInfo) (msg : String),
        (handle mws s m p b e routes).2.2 ≠ Outcome.badRequest msg) := by
  constructor
  · intro p
    exact ⟨selfParams p, extractParams_self p⟩
  · intro mws s m p b e routes msg
    induction routes with
    | nil => simp [handle_nil]
    | cons v rest ih =>
      by_cases hp : p = v.Endpoint
      · by_cases hm : m = v.Method
        · rw [handle_cons_dispatch mws s m p b e v rest hp hm]
          simp
        · rw [handle_cons_mismatch mws s m p b e v rest hp hm]
          simp
      · rw [handle_cons_nomatch mws s m p b e v rest hp]
        simpa using ih

end Httpfly
